import Mathlib

/-!
Shallow embedding of the alert-management core of
machadovilaca/cluster-monitoring-operator.

Go maps are modelled as association lists (`List (String × String)`);
indexing a Go map returns the zero value `""` when the key is absent,
and the two-result form `v, ok := m[k]` is modelled by an `Option`
lookup.  The Kubernetes client is modelled as a pure store (a list of
`PrometheusRule` objects) plus an explicit log of write operations.
-/

namespace CMO

/-- Go lookup `v, ok := m[k]` on a `map[string]string`. -/
def lookupLabelOpt (labels : List (String × String)) (k : String) : Option String :=
  (labels.find? (fun p => p.1 == k)).map (fun p => p.2)

/-- Go indexing `m[k]` on a `map[string]string`: zero value `""` when absent. -/
def lookupLabel (labels : List (String × String)) (k : String) : String :=
  (lookupLabelOpt labels k).getD ""

/-- monv1.Rule (the fields the management package reads or writes). -/
structure Rule where
  alert : String
  expr : String
  labels : List (String × String)
  annotations : List (String × String)
deriving Repr, DecidableEq

/-- monv1.RuleGroup. -/
structure RuleGroup where
  name : String
  rules : List Rule
deriving Repr, DecidableEq

/-- monv1.PrometheusRule: ObjectMeta (name, namespace, labels) plus Spec.Groups. -/
structure PrometheusRule where
  name : String
  «namespace» : String
  labels : List (String × String)
  groups : List RuleGroup
deriving Repr, DecidableEq

/-- management.AlertingRuleId. -/
structure AlertingRuleId where
  «namespace» : String
  prometheusRule : String
  ruleName : String
  severity : String
deriving Repr, DecidableEq

/-- const ResourceOwnerLabelKey = "cmo.openshift.io/owner". -/
def ResourceOwnerLabelKey : String := "cmo.openshift.io/owner"

/-- const ResourceOwnerLabelValue = "alert-management". -/
def ResourceOwnerLabelValue : String := "alert-management"

/-- const PrometheusRuleGroupName = "cmo-alert-management". -/
def PrometheusRuleGroupName : String := "cmo-alert-management"

/-- The Kubernetes store, one PrometheusRule per (namespace, name). -/
abbrev Store := List PrometheusRule

/-- Client.GetPrometheusRule: fetch by (namespace, name); `none` models the
k8s NotFound error. -/
def GetPrometheusRule (s : Store) (ns name : String) : Option PrometheusRule :=
  s.find? (fun pr => pr.«namespace» == ns && pr.name == name)

/-- A store write issued through the Client interface. -/
inductive WriteOp where
  | createOrUpdatePrometheusRule (pr : PrometheusRule)
  | deletePrometheusRuleByNamespaceAndName (ns name : String)
deriving Repr, DecidableEq

/-- Effect of one Client write on the store. -/
def applyWriteOp (s : Store) : WriteOp → Store
  | .createOrUpdatePrometheusRule pr =>
      if s.any (fun p => p.«namespace» == pr.«namespace» && p.name == pr.name) then
        s.map (fun p =>
          if p.«namespace» == pr.«namespace» && p.name == pr.name then pr else p)
      else
        s ++ [pr]
  | .deletePrometheusRuleByNamespaceAndName ns name =>
      s.filter (fun p => !(p.«namespace» == ns && p.name == name))

/-- Effect of a sequence of Client writes on the store. -/
def applyWriteOps (s : Store) (ws : List WriteOp) : Store :=
  ws.foldl applyWriteOp s

/-- ControllerImpl.getPrometheusRule: the private helper returning
(pr, found, err).  `some pr` models (pr, true, nil); `none` models
(nil, false, nil), which the helper returns both on a NotFound error and
when the object is nil or has an empty name. -/
def getPrometheusRule (s : Store) (ns name : String) : Option PrometheusRule :=
  match GetPrometheusRule s ns name with
  | none => none
  | some pr => if pr.name == "" then none else some pr

/-- isCMOManagedPrometheusRule: the document carries the exact
owner-label key/value pair. -/
def isCMOManagedPrometheusRule (pr : PrometheusRule) : Bool :=
  match lookupLabelOpt pr.labels ResourceOwnerLabelKey with
  | none => false
  | some val => val == ResourceOwnerLabelValue

/-- The fresh PrometheusRule built by savePrometheusRule before persisting:
owner label set, a single group named "cmo-alert-management". -/
def newPrometheusRule (ns name : String) (rules : List Rule) : PrometheusRule :=
  { name := name
    «namespace» := ns
    labels := [(ResourceOwnerLabelKey, ResourceOwnerLabelValue)]
    groups := [{ name := "cmo-alert-management", rules := rules }] }

/-- ControllerImpl.savePrometheusRule: re-fetch, re-check ownership,
delete when the rule list is empty (only if the document was found),
otherwise create-or-update a document holding exactly the owned group.
Returns the Go error and the list of Client writes performed. -/
def savePrometheusRule (s : Store) (ns name : String) (rules : List Rule) :
    Except String Unit × List WriteOp :=
  match getPrometheusRule s ns name with
  | some pr =>
      if !isCMOManagedPrometheusRule pr then
        (.error "PrometheusRule already exists and is not managed by CMO alert management", [])
      else if rules.isEmpty then
        (.ok (), [.deletePrometheusRuleByNamespaceAndName ns name])
      else
        (.ok (), [.createOrUpdatePrometheusRule (newPrometheusRule ns name rules)])
  | none =>
      if rules.isEmpty then
        (.ok (), [])
      else
        (.ok (), [.createOrUpdatePrometheusRule (newPrometheusRule ns name rules)])

/-- findCMOManagedRuleGroup: first group whose name is the reserved
constant, or the "CMO managed rule group not found" error. -/
def findCMOManagedRuleGroup (pr : PrometheusRule) : Except String RuleGroup :=
  match pr.groups.find? (fun group => group.name == PrometheusRuleGroupName) with
  | some group => .ok group
  | none => .error "CMO managed rule group not found"

/-- The "PrometheusRule %s/%s not found" error message of GetAlertingRule. -/
def docNotFoundMsg (ns name : String) : String :=
  "PrometheusRule " ++ ns ++ "/" ++ name ++ " not found"

/-- The "alerting rule %s/%s not found in PrometheusRule %s/%s" error
message of GetAlertingRule. -/
def ruleNotFoundMsg (severity ruleName ns name : String) : String :=
  "alerting rule " ++ severity ++ "/" ++ ruleName ++ " not found in PrometheusRule "
    ++ ns ++ "/" ++ name

/-- The match test of GetAlertingRule's inner loop:
rule.Alert == arID.RuleName && rule.Labels["severity"] == arID.Severity. -/
def ruleMatches (r : Rule) (ruleName severity : String) : Bool :=
  r.alert == ruleName && lookupLabel r.labels "severity" == severity

/-- The nested loop of GetAlertingRule over every group's rules,
returning the first match. -/
def findRuleInGroups : List RuleGroup → String → String → Option Rule
  | [], _, _ => none
  | group :: gs, ruleName, severity =>
      match group.rules.find? (fun rule => ruleMatches rule ruleName severity) with
      | some rule => some rule
      | none => findRuleInGroups gs ruleName severity

/-- ControllerImpl.GetAlertingRule. -/
def GetAlertingRule (s : Store) (arID : AlertingRuleId) : Except String Rule :=
  match GetPrometheusRule s arID.«namespace» arID.prometheusRule with
  | none => .error (docNotFoundMsg arID.«namespace» arID.prometheusRule)
  | some prometheusRule =>
      match findRuleInGroups prometheusRule.groups arID.ruleName arID.severity with
      | some rule => .ok rule
      | none =>
          .error (ruleNotFoundMsg arID.severity arID.ruleName
            arID.«namespace» arID.prometheusRule)

/-- The "PrometheusRule %s/%s is not managed by CMO" error message of
CreateAlertingRule. -/
def notManagedMsg (ns name : String) : String :=
  "PrometheusRule " ++ ns ++ "/" ++ name ++ " is not managed by CMO"

/-- ControllerImpl.CreateAlertingRule.  Returns the Go result
(rule or error) together with the list of Client writes performed. -/
def CreateAlertingRule (s : Store) (arID : AlertingRuleId) (rule : Rule) :
    Except String Rule × List WriteOp :=
  match getPrometheusRule s arID.«namespace» arID.prometheusRule with
  | some prometheusRule =>
      if !isCMOManagedPrometheusRule prometheusRule then
        (.error (notManagedMsg arID.«namespace» arID.prometheusRule), [])
      else
        match findCMOManagedRuleGroup prometheusRule with
        | .error e => (.error e, [])
        | .ok ruleGroup =>
            let rules := ruleGroup.rules ++ [rule]
            match savePrometheusRule s arID.«namespace» arID.prometheusRule rules with
            | (.error _, ws) =>
                (.error ("unexpected error saving PrometheusRule "
                  ++ arID.«namespace» ++ "/" ++ arID.prometheusRule), ws)
            | (.ok (), ws) => (.ok rule, ws)
  | none =>
      let ruleGroup : RuleGroup := { name := PrometheusRuleGroupName, rules := [] }
      let rules := ruleGroup.rules ++ [rule]
      match savePrometheusRule s arID.«namespace» arID.prometheusRule rules with
      | (.error _, ws) =>
          (.error ("unexpected error saving PrometheusRule "
            ++ arID.«namespace» ++ "/" ++ arID.prometheusRule), ws)
      | (.ok (), ws) => (.ok rule, ws)

/-! ## HTTP layer (pkg/httpserver/alertmanagement.go) -/

/-- ParseAlertingRuleId: build the id from the four path values and
reject when any is empty. -/
def ParseAlertingRuleId (ns prName ruleName severity : String) :
    Except String AlertingRuleId :=
  let arId : AlertingRuleId :=
    { «namespace» := ns, prometheusRule := prName,
      ruleName := ruleName, severity := severity }
  if arId.«namespace» == "" || arId.prometheusRule == ""
      || arId.ruleName == "" || arId.severity == "" then
    .error "missing required path parameters"
  else
    .ok arId

/-- The HTTP responses the getAlertingRule handler can produce. -/
inductive HttpResponse where
  | badRequest (msg : String)
  | internalServerError (msg : String)
  | okJson (rule : Rule)
deriving Repr, DecidableEq

/-- The getAlertingRuleHandler of alertManagementMux: parse the id
(400 on failure, before any controller/store call), then delegate to
GetAlertingRule (500 on failure, JSON body on success). -/
def getAlertingRuleHandler (s : Store) (ns prName ruleName severity : String) :
    HttpResponse :=
  match ParseAlertingRuleId ns prName ruleName severity with
  | .error e => .badRequest e
  | .ok arId =>
      match GetAlertingRule s arId with
      | .error e => .internalServerError e
      | .ok rule => .okJson rule

/-! ## Prometheus client helpers (pkg/prometheus/client.go) -/

/-- const MaxLength = 1000. -/
def MaxLength : Nat := 1000

/-- ClampMax on the byte string `b`: Go string indexing and `len` are
byte-based, so the string is modelled as its list of bytes; `46` is the
byte of the character the ellipsis is made of. -/
def ClampMax (b : List Nat) : List Nat :=
  if b.length ≤ MaxLength then b
  else b.take (MaxLength - 3) ++ [46, 46, 46]

/-! ## Poll (pkg/prometheus/client.go)

`Poll` wraps `wait.PollUntilContextTimeout(ctx, interval, timeout, true, cond)`
from the third-party k8s.io wait library.  Real time is abstracted into a
discrete schedule: `attempts` is the number of probe invocations that fit
before `timeout` elapses (with `immediate = true` the first invocation
happens at time zero, so a positive timeout admits at least one attempt;
`attempts = 0` models a non-positive timeout under which the probe never
runs).  The probe is a function of the attempt index; `none` models a nil
error (success), `some e` a non-nil error. -/

/-- Outcome of the wait library's polling loop together with the wrapper's
captured `lastErr` variable. -/
inductive PollRun (E : Type) where
  | success
  | timedOut (lastErr : Option E)
deriving Repr, DecidableEq

/-- The polling loop: run the condition at attempt index `i` with `fuel`
attempts left, threading the wrapper's `lastErr`.  The condition of `Poll`
is `lastErr = f(); return lastErr == nil, nil`. -/
def pollRunAux (f : Nat → Option E) : Option E → Nat → Nat → PollRun E
  | lastErr, _, 0 => .timedOut lastErr
  | _, i, fuel + 1 =>
      match f i with
      | none => .success
      | some e => pollRunAux f (some e) (i + 1) fuel

/-- wait.PollUntilContextTimeout with `immediate = true`, starting at
attempt index 0 with `lastErr` nil. -/
def pollRun (attempts : Nat) (f : Nat → Option E) : PollRun E :=
  pollRunAux f none 0 attempts

/-- The error value Poll returns: nothing on success; on timeout, either
the raw wait-timeout error alone, or it wrapped (`%w: %w`) together with
the most recent probe error. -/
inductive PollError (E : Type) where
  | errWaitTimeout
  | timeoutWrapping (lastErr : E)
deriving Repr, DecidableEq

/-- Poll(interval, timeout, f): run the loop; if it timed out and the
captured `lastErr` is non-nil, wrap the timeout error with it, otherwise
return the timeout error as is. -/
def Poll (attempts : Nat) (f : Nat → Option E) : Option (PollError E) :=
  match pollRun attempts f with
  | .success => none
  | .timedOut none => some .errWaitTimeout
  | .timedOut (some e) => some (.timeoutWrapping e)

/-! ## Concrete example data used by witnesses and counterexamples -/

/-- A rule named Foo at severity warning. -/
def exRuleWarning : Rule :=
  { alert := "Foo", expr := "up == 0", labels := [("severity", "warning")],
    annotations := [] }

/-- A rule named TestAlert at severity critical. -/
def exRuleCritical : Rule :=
  { alert := "TestAlert", expr := "vector(1)", labels := [("severity", "critical")],
    annotations := [] }

/-- A rule group owned by a foreign writer. -/
def exForeignGroup : RuleGroup := { name := "foreign", rules := [exRuleWarning] }

/-- The controller-owned rule group holding one rule. -/
def exOwnedGroup : RuleGroup :=
  { name := "cmo-alert-management", rules := [exRuleWarning] }

/-- A managed document holding a foreign group and the owned group. -/
def exDocBoth : PrometheusRule :=
  { name := "pr1", «namespace» := "ns",
    labels := [(ResourceOwnerLabelKey, ResourceOwnerLabelValue)],
    groups := [exForeignGroup, exOwnedGroup] }

/-- A managed document that lacks the reserved owned group. -/
def exDocNoOwnedGroup : PrometheusRule :=
  { name := "pr1", «namespace» := "ns",
    labels := [(ResourceOwnerLabelKey, ResourceOwnerLabelValue)],
    groups := [{ name := "test-group", rules := [exRuleWarning] }] }

/-- A document whose ownership marker carries a foreign value. -/
def exDocForeignOwner : PrometheusRule :=
  { name := "pr1", «namespace» := "ns",
    labels := [(ResourceOwnerLabelKey, "someone-else")],
    groups := [exOwnedGroup] }

/-- A managed document holding only the owned group. -/
def exDocOwnedOnly : PrometheusRule :=
  { name := "pr1", «namespace» := "ns",
    labels := [(ResourceOwnerLabelKey, ResourceOwnerLabelValue)],
    groups := [exOwnedGroup] }

/-- The identity (ns, pr1, TestAlert, critical). -/
def exIdCritical : AlertingRuleId :=
  { «namespace» := "ns", prometheusRule := "pr1",
    ruleName := "TestAlert", severity := "critical" }

/-- The identity (ns, pr1, Foo, critical): Foo exists only at warning. -/
def exIdFooCritical : AlertingRuleId :=
  { «namespace» := "ns", prometheusRule := "pr1",
    ruleName := "Foo", severity := "critical" }

/-! ## General lemmas about the embedding -/

/-- The nested loop of GetAlertingRule is the first match over the
concatenation of every group's rules, in document order. -/
theorem findRuleInGroups_eq_find? (gs : List RuleGroup) (rn sv : String) :
    findRuleInGroups gs rn sv =
      (gs.flatMap RuleGroup.rules).find? (fun r => ruleMatches r rn sv) := by
  induction gs with
  | nil => rfl
  | cons g gs ih =>
      rw [List.flatMap_cons, List.find?_append, ← ih]
      show (match g.rules.find? (fun rule => ruleMatches rule rn sv) with
        | some rule => some rule
        | none => findRuleInGroups gs rn sv) = _
      cases g.rules.find? (fun rule => ruleMatches rule rn sv) <;>
        simp [Option.or]

/-! ## Claim theorems -/

/-- C4: for every document and identity, GetAlertingRule scans the rules of
every group (in document order, not only the owned group) for a rule whose
alert name equals the identity's rule name and whose severity label equals
the identity's severity, returning the first such match; when every rule
carrying the requested name has a different severity label (and no other
rule matches either), the lookup fails with the rule-not-found error. -/
theorem getAlertingRule_scans_all_groups (s : Store) (arID : AlertingRuleId)
    (pr : PrometheusRule)
    (hpr : GetPrometheusRule s arID.«namespace» arID.prometheusRule = some pr) :
    (GetAlertingRule s arID =
      match (pr.groups.flatMap RuleGroup.rules).find?
          (fun r => ruleMatches r arID.ruleName arID.severity) with
      | some rule => .ok rule
      | none => .error (ruleNotFoundMsg arID.severity arID.ruleName
          arID.«namespace» arID.prometheusRule)) ∧
    ((∀ r ∈ pr.groups.flatMap RuleGroup.rules,
        r.alert = arID.ruleName → lookupLabel r.labels "severity" ≠ arID.severity) →
      GetAlertingRule s arID = .error (ruleNotFoundMsg arID.severity arID.ruleName
          arID.«namespace» arID.prometheusRule)) := by
  have hbody : GetAlertingRule s arID =
      match findRuleInGroups pr.groups arID.ruleName arID.severity with
      | some rule => .ok rule
      | none => .error (ruleNotFoundMsg arID.severity arID.ruleName
          arID.«namespace» arID.prometheusRule) := by
    rw [GetAlertingRule, hpr]
  refine ⟨by rw [hbody, findRuleInGroups_eq_find?], ?_⟩
  intro hnone
  have hfind : (pr.groups.flatMap RuleGroup.rules).find?
      (fun r => ruleMatches r arID.ruleName arID.severity) = none := by
    rw [List.find?_eq_none]
    intro r hr
    have := hnone r hr
    simp only [ruleMatches, Bool.and_eq_true, beq_iff_eq, not_and]
    intro ha
    exact fun hs => this ha hs
  rw [hbody, findRuleInGroups_eq_find?, hfind]

/-- C4 witness: on a concrete document whose owned group holds Foo at
severity warning, requesting Foo at severity critical fails with the
rule-not-found error. -/
theorem getAlertingRule_scans_all_groups_witness :
    GetPrometheusRule [exDocBoth] exIdFooCritical.«namespace»
        exIdFooCritical.prometheusRule = some exDocBoth ∧
    GetAlertingRule [exDocBoth] exIdFooCritical
      = .error (ruleNotFoundMsg "critical" "Foo" "ns" "pr1") := by
  have h := getAlertingRule_scans_all_groups [exDocBoth] exIdFooCritical exDocBoth
    (by decide)
  exact ⟨by decide, by
    have h2 := h.2 (by decide)
    simpa using h2⟩

/-- C10: ClampMax returns its input unchanged when the byte length is at
most MaxLength = 1000, and otherwise the first 997 bytes followed by the
three-byte ellipsis, a result of length exactly 1000; the result's length
never exceeds MaxLength. -/
theorem clampMax_spec (b : List Nat) :
    (ClampMax b).length ≤ MaxLength ∧
    (b.length ≤ MaxLength → ClampMax b = b) ∧
    (MaxLength < b.length →
      ClampMax b = b.take 997 ++ [46, 46, 46] ∧
      (ClampMax b).length = MaxLength) := by
  by_cases h : b.length ≤ MaxLength
  · refine ⟨?_, fun _ => ?_, fun hlt => absurd hlt (not_lt.mpr h)⟩
    · rw [ClampMax, if_pos h]; exact h
    · rw [ClampMax, if_pos h]
  · have hlt := lt_of_not_le h
    have hcl : ClampMax b = b.take (MaxLength - 3) ++ [46, 46, 46] := by
      rw [ClampMax, if_neg h]
    have htake : MaxLength - 3 = 997 := by norm_num [MaxLength]
    have hlen : (ClampMax b).length = MaxLength := by
      rw [hcl, List.length_append, List.length_take, List.length_cons,
        List.length_cons, List.length_cons, List.length_nil]
      simp only [MaxLength] at hlt ⊢
      omega
    exact ⟨le_of_eq hlen, fun hle => absurd hlt (not_lt.mpr hle),
      fun _ => ⟨by rw [hcl, htake], hlen⟩⟩

/-- C10 witness: a 3-byte input is returned unchanged, and a 1001-byte
input is clamped to its first 997 bytes plus the ellipsis, of length
exactly 1000. -/
theorem clampMax_spec_witness :
    ((1 : Nat) ≤ MaxLength ∧ ClampMax [1, 2, 3] = [1, 2, 3]) ∧
    (MaxLength < (List.replicate 1001 (7 : Nat)).length ∧
      ClampMax (List.replicate 1001 (7 : Nat))
        = List.replicate 997 (7 : Nat) ++ [46, 46, 46] ∧
      (ClampMax (List.replicate 1001 (7 : Nat))).length = MaxLength) := by
  have hshort := (clampMax_spec [1, 2, 3]).2.1 (by norm_num [MaxLength])
  have hlonglen : MaxLength < (List.replicate 1001 (7 : Nat)).length := by
    rw [List.length_replicate, MaxLength]
    norm_num
  have hlong := (clampMax_spec (List.replicate 1001 (7 : Nat))).2.2 hlonglen
  refine ⟨⟨by norm_num [MaxLength], hshort⟩, hlonglen, ?_, hlong.2⟩
  rw [hlong.1, List.take_replicate]
  norm_num

/-- The document-not-found message always starts with the byte of P. -/
theorem docNotFoundMsg_head (ns name : String) :
    (docNotFoundMsg ns name).data.head? = some 'P' := by
  have hlit : "PrometheusRule ".data = 'P' :: "rometheusRule ".data := rfl
  rw [docNotFoundMsg, String.data_append, String.data_append,
    String.data_append, String.data_append, hlit]
  simp

/-- The rule-not-found message always starts with the byte of a. -/
theorem ruleNotFoundMsg_head (severity ruleName ns name : String) :
    (ruleNotFoundMsg severity ruleName ns name).data.head? = some 'a' := by
  have hlit : "alerting rule ".data = 'a' :: "lerting rule ".data := rfl
  rw [ruleNotFoundMsg, String.data_append, String.data_append,
    String.data_append, String.data_append, String.data_append,
    String.data_append, String.data_append, hlit]
  simp

/-- C5: GetAlertingRule fails with the document-not-found error exactly
when the document is absent from the store, fails with the rule-not-found
error when the document exists but no rule matches, and the two error
values are never equal, for any identity whatsoever. -/
theorem getAlertingRule_distinguishes_errors (s : Store) (arID : AlertingRuleId) :
    (GetPrometheusRule s arID.«namespace» arID.prometheusRule = none →
      GetAlertingRule s arID
        = .error (docNotFoundMsg arID.«namespace» arID.prometheusRule)) ∧
    (∀ pr, GetPrometheusRule s arID.«namespace» arID.prometheusRule = some pr →
      findRuleInGroups pr.groups arID.ruleName arID.severity = none →
      GetAlertingRule s arID
        = .error (ruleNotFoundMsg arID.severity arID.ruleName
            arID.«namespace» arID.prometheusRule)) ∧
    (∀ ns name severity ruleName : String,
      docNotFoundMsg ns name ≠ ruleNotFoundMsg severity ruleName ns name) := by
  refine ⟨fun habs => ?_, fun pr hpr hnone => ?_, fun ns name severity ruleName heq => ?_⟩
  · rw [GetAlertingRule, habs]
  · rw [GetAlertingRule, hpr]
    simp only [hnone]
  · have h := congrArg (fun t => t.data.head?) heq
    simp only at h
    rw [docNotFoundMsg_head, ruleNotFoundMsg_head] at h
    exact absurd (Option.some.inj h) (by decide)

/-- C5 witness: on the empty store the lookup fails with the
document-not-found error; on a store holding the example document the same
lookup fails with the rule-not-found error; the two errors differ. -/
theorem getAlertingRule_distinguishes_errors_witness :
    GetAlertingRule [] exIdFooCritical = .error (docNotFoundMsg "ns" "pr1") ∧
    GetAlertingRule [exDocBoth] exIdFooCritical
      = .error (ruleNotFoundMsg "critical" "Foo" "ns" "pr1") ∧
    docNotFoundMsg "ns" "pr1" ≠ ruleNotFoundMsg "critical" "Foo" "ns" "pr1" := by
  have h1 := (getAlertingRule_distinguishes_errors [] exIdFooCritical).1 (by decide)
  have h2 := (getAlertingRule_distinguishes_errors [exDocBoth] exIdFooCritical).2.1
    exDocBoth (by decide) (by decide)
  have h3 := (getAlertingRule_distinguishes_errors [] exIdFooCritical).2.2
    "ns" "pr1" "critical" "Foo"
  exact ⟨h1, h2, h3⟩

/-- C6: on an existing document whose ownership marker is absent or carries
a foreign value, CreateAlertingRule fails with the ownership-conflict error
and issues no store write at all; independently, the persist step
savePrometheusRule re-validates ownership itself and also refuses, issuing
no write, whatever rule list it is handed. -/
theorem create_on_foreign_doc_writes_nothing (s : Store) (arID : AlertingRuleId)
    (rule : Rule) (pr : PrometheusRule)
    (hget : GetPrometheusRule s arID.«namespace» arID.prometheusRule = some pr)
    (hname : pr.name ≠ "")
    (hforeign : isCMOManagedPrometheusRule pr = false) :
    CreateAlertingRule s arID rule
      = (.error (notManagedMsg arID.«namespace» arID.prometheusRule), []) ∧
    ∀ rules : List Rule, savePrometheusRule s arID.«namespace» arID.prometheusRule rules
      = (.error "PrometheusRule already exists and is not managed by CMO alert management",
         []) := by
  have hne : (pr.name == "") = false := beq_eq_false_iff_ne.mpr hname
  have hpriv : getPrometheusRule s arID.«namespace» arID.prometheusRule = some pr := by
    rw [getPrometheusRule, hget]
    simp [hne]
  constructor
  · rw [CreateAlertingRule, hpriv]
    simp [hforeign]
  · intro rules
    rw [savePrometheusRule, hpriv]
    simp [hforeign]

/-- C6 witness: on a concrete document labelled with a foreign owner value,
Create fails with the ownership-conflict error and performs zero writes,
and the persist step refuses as well. -/
theorem create_on_foreign_doc_writes_nothing_witness :
    GetPrometheusRule [exDocForeignOwner] "ns" "pr1" = some exDocForeignOwner ∧
    CreateAlertingRule [exDocForeignOwner] exIdCritical exRuleCritical
      = (.error (notManagedMsg "ns" "pr1"), []) ∧
    savePrometheusRule [exDocForeignOwner] "ns" "pr1" [exRuleCritical]
      = (.error "PrometheusRule already exists and is not managed by CMO alert management",
         []) := by
  have h := create_on_foreign_doc_writes_nothing [exDocForeignOwner] exIdCritical
    exRuleCritical exDocForeignOwner (by decide) (by decide) (by decide)
  exact ⟨by decide, h.1, h.2 [exRuleCritical]⟩

/-- C7: on an absent document, CreateAlertingRule issues exactly one write
creating a controller-owned document with one group (the reserved name)
containing exactly the given rule, returns that rule, and a subsequent
GetAlertingRule with the same identity on the resulting store returns a
rule equal to the one created (valid identity: the payload carries the
identity's alert name and severity label). -/
theorem create_then_get_roundtrip (s : Store) (arID : AlertingRuleId) (rule : Rule)
    (habsent : GetPrometheusRule s arID.«namespace» arID.prometheusRule = none)
    (halert : rule.alert = arID.ruleName)
    (hsev : lookupLabel rule.labels "severity" = arID.severity) :
    CreateAlertingRule s arID rule
      = (.ok rule, [.createOrUpdatePrometheusRule
          (newPrometheusRule arID.«namespace» arID.prometheusRule [rule])]) ∧
    (newPrometheusRule arID.«namespace» arID.prometheusRule [rule]).labels
      = [(ResourceOwnerLabelKey, ResourceOwnerLabelValue)] ∧
    (newPrometheusRule arID.«namespace» arID.prometheusRule [rule]).groups
      = [{ name := PrometheusRuleGroupName, rules := [rule] }] ∧
    GetAlertingRule (applyWriteOps s (CreateAlertingRule s arID rule).2) arID
      = .ok rule := by
  have hpriv : getPrometheusRule s arID.«namespace» arID.prometheusRule = none := by
    rw [getPrometheusRule, habsent]
  have hsave : savePrometheusRule s arID.«namespace» arID.prometheusRule [rule]
      = (.ok (), [.createOrUpdatePrometheusRule
          (newPrometheusRule arID.«namespace» arID.prometheusRule [rule])]) := by
    rw [savePrometheusRule, hpriv]
    rfl
  have hcreate : CreateAlertingRule s arID rule
      = (.ok rule, [.createOrUpdatePrometheusRule
          (newPrometheusRule arID.«namespace» arID.prometheusRule [rule])]) := by
    rw [CreateAlertingRule, hpriv]
    simp only [List.nil_append, hsave]
  refine ⟨hcreate, rfl, rfl, ?_⟩
  rw [hcreate]
  have hnomatch : ∀ p ∈ s,
      ¬(p.«namespace» == arID.«namespace» && p.name == arID.prometheusRule) = true :=
    List.find?_eq_none.mp habsent
  have hany : s.any (fun p => p.«namespace» == arID.«namespace»
      && p.name == arID.prometheusRule) = false :=
    List.any_eq_false.mpr hnomatch
  have happly : applyWriteOps s [WriteOp.createOrUpdatePrometheusRule
      (newPrometheusRule arID.«namespace» arID.prometheusRule [rule])]
      = s ++ [newPrometheusRule arID.«namespace» arID.prometheusRule [rule]] := by
    rw [applyWriteOps]
    simp only [List.foldl_cons, List.foldl_nil]
    rw [applyWriteOp]
    simp only [newPrometheusRule, hany]
    rfl
  rw [happly, GetAlertingRule]
  have habsent' : List.find? (fun pr => pr.«namespace» == arID.«namespace»
      && pr.name == arID.prometheusRule) s = none := habsent
  have hfound : GetPrometheusRule
      (s ++ [newPrometheusRule arID.«namespace» arID.prometheusRule [rule]])
      arID.«namespace» arID.prometheusRule
      = some (newPrometheusRule arID.«namespace» arID.prometheusRule [rule]) := by
    rw [GetPrometheusRule, List.find?_append, habsent']
    simp [newPrometheusRule]
  rw [hfound]
  have hmatch : ruleMatches rule arID.ruleName arID.severity = true := by
    rw [ruleMatches, halert, hsev]
    simp
  simp only [newPrometheusRule, findRuleInGroups, List.find?_cons, hmatch]

/-- C7 witness: creating the TestAlert/critical rule in an empty store
persists a single owned-group document and a subsequent Get with the same
identity returns the created rule. -/
theorem create_then_get_roundtrip_witness :
    GetPrometheusRule [] "ns" "pr1" = none ∧
    CreateAlertingRule [] exIdCritical exRuleCritical
      = (.ok exRuleCritical, [.createOrUpdatePrometheusRule
          (newPrometheusRule "ns" "pr1" [exRuleCritical])]) ∧
    GetAlertingRule
      (applyWriteOps [] (CreateAlertingRule [] exIdCritical exRuleCritical).2)
      exIdCritical = .ok exRuleCritical := by
  have h := create_then_get_roundtrip [] exIdCritical exRuleCritical
    (by decide) (by decide) (by decide)
  exact ⟨by decide, h.1, h.2.2.2⟩

/-- C1 counterexample: the claim that foreign groups survive a
controller-initiated write byte-for-byte is false.  On a concrete managed
document holding a foreign group "foreign" next to the owned group, Create
succeeds, yet the persisted document's group sequence no longer contains
the foreign group at all. -/
theorem create_drops_foreign_group_cex :
    exDocBoth.groups.map RuleGroup.name = ["foreign", "cmo-alert-management"] ∧
    (CreateAlertingRule [exDocBoth] exIdCritical exRuleCritical).1
      = .ok exRuleCritical ∧
    (GetPrometheusRule
        (applyWriteOps [exDocBoth]
          (CreateAlertingRule [exDocBoth] exIdCritical exRuleCritical).2)
        "ns" "pr1").map (fun pr => pr.groups.map RuleGroup.name)
      = some ["cmo-alert-management"] := by
  refine ⟨rfl, rfl, rfl⟩

/-- C1 amended: every store write issued by CreateAlertingRule is a
create-or-update of the canonical document holding exactly one group, the
owned group; in particular no persisted document retains any foreign
group, rather than preserving them. -/
theorem create_persists_single_owned_group (s : Store) (arID : AlertingRuleId)
    (rule : Rule) (w : WriteOp)
    (hw : w ∈ (CreateAlertingRule s arID rule).2) :
    ∃ rules : List Rule, rules ≠ [] ∧
      w = .createOrUpdatePrometheusRule
        (newPrometheusRule arID.«namespace» arID.prometheusRule rules) ∧
      (newPrometheusRule arID.«namespace» arID.prometheusRule rules).groups
        = [{ name := PrometheusRuleGroupName, rules := rules }] := by
  have hsave : ∀ rules : List Rule, rules ≠ [] →
      w ∈ (savePrometheusRule s arID.«namespace» arID.prometheusRule rules).2 →
      ∃ rules' : List Rule, rules' ≠ [] ∧
        w = .createOrUpdatePrometheusRule
          (newPrometheusRule arID.«namespace» arID.prometheusRule rules') ∧
        (newPrometheusRule arID.«namespace» arID.prometheusRule rules').groups
          = [{ name := PrometheusRuleGroupName, rules := rules' }] := by
    intro rules hne hmem
    have hemp : rules.isEmpty = false := by
      cases rules with
      | nil => exact absurd rfl hne
      | cons a l => rfl
    refine ⟨rules, hne, ?_, rfl⟩
    rw [savePrometheusRule] at hmem
    cases hcase : getPrometheusRule s arID.«namespace» arID.prometheusRule with
    | none =>
        rw [hcase] at hmem
        simp only [hemp] at hmem
        simpa using hmem
    | some pr =>
        rw [hcase] at hmem
        by_cases hman : isCMOManagedPrometheusRule pr
        · simp only [hman, hemp] at hmem
          simpa using hmem
        · rw [Bool.not_eq_true] at hman
          simp only [hman] at hmem
          simp at hmem
  rw [CreateAlertingRule] at hw
  cases hcase : getPrometheusRule s arID.«namespace» arID.prometheusRule with
  | none =>
      rw [hcase] at hw
      simp only [List.nil_append] at hw
      cases hsv : savePrometheusRule s arID.«namespace» arID.prometheusRule [rule] with
      | mk res ws =>
          rw [hsv] at hw
          have hmem : w ∈ (savePrometheusRule s arID.«namespace»
              arID.prometheusRule [rule]).2 := by
            rw [hsv]
            cases res with
            | error e => simpa using hw
            | ok u => simpa using hw
          exact hsave [rule] (by simp) hmem
  | some pr =>
      rw [hcase] at hw
      by_cases hman : isCMOManagedPrometheusRule pr
      · cases hg : findCMOManagedRuleGroup pr with
        | error e => simp [hman, hg] at hw
        | ok ruleGroup =>
            rcases hsv : savePrometheusRule s arID.«namespace» arID.prometheusRule
                (ruleGroup.rules ++ [rule]) with ⟨res, ws⟩
            have hmem : w ∈ ws := by
              cases res <;> simp [hman, hg, hsv] at hw <;> exact hw
            exact hsave (ruleGroup.rules ++ [rule]) (by simp)
              (by rw [hsv]; exact hmem)
      · rw [Bool.not_eq_true] at hman
        simp [hman] at hw

/-- C1 witness: on a concrete managed document with only the owned group,
the single write issued by Create is the canonical single-owned-group
document. -/
theorem create_persists_single_owned_group_witness :
    WriteOp.createOrUpdatePrometheusRule
        (newPrometheusRule "ns" "pr1" [exRuleWarning, exRuleCritical])
      ∈ (CreateAlertingRule [exDocOwnedOnly] exIdCritical exRuleCritical).2 ∧
    ∃ rules : List Rule, rules ≠ [] ∧
      WriteOp.createOrUpdatePrometheusRule
          (newPrometheusRule "ns" "pr1" [exRuleWarning, exRuleCritical])
        = .createOrUpdatePrometheusRule (newPrometheusRule "ns" "pr1" rules) ∧
      (newPrometheusRule "ns" "pr1" rules).groups
        = [{ name := PrometheusRuleGroupName, rules := rules }] := by
  have hmem : WriteOp.createOrUpdatePrometheusRule
      (newPrometheusRule "ns" "pr1" [exRuleWarning, exRuleCritical])
      ∈ (CreateAlertingRule [exDocOwnedOnly] exIdCritical exRuleCritical).2 := by
    decide
  exact ⟨hmem, create_persists_single_owned_group
    [exDocOwnedOnly] exIdCritical exRuleCritical _ hmem⟩

/-- C2 counterexample: on a concrete existing, controller-managed document
that lacks the reserved owned group, CreateAlertingRule does fail with the
group-not-found error (and performs no write), contrary to the claim that
it synthesizes the group in that state. -/
theorem create_missing_group_fails_cex :
    isCMOManagedPrometheusRule exDocNoOwnedGroup = true ∧
    exDocNoOwnedGroup.groups.map RuleGroup.name = ["test-group"] ∧
    CreateAlertingRule [exDocNoOwnedGroup] exIdCritical exRuleCritical
      = (.error "CMO managed rule group not found", []) := by
  refine ⟨rfl, rfl, rfl⟩

/-- C2 amended: for every existing, controller-managed document that does
not contain the reserved owned group, CreateAlertingRule fails with the
group-not-found error and performs no store write; the owned group is
synthesized only on the path where the document is absent. -/
theorem create_missing_group_fails (s : Store) (arID : AlertingRuleId)
    (rule : Rule) (pr : PrometheusRule)
    (hget : GetPrometheusRule s arID.«namespace» arID.prometheusRule = some pr)
    (hname : pr.name ≠ "")
    (hmanaged : isCMOManagedPrometheusRule pr = true)
    (hnogroup : pr.groups.find? (fun g => g.name == PrometheusRuleGroupName) = none) :
    CreateAlertingRule s arID rule = (.error "CMO managed rule group not found", []) := by
  have hne : (pr.name == "") = false := beq_eq_false_iff_ne.mpr hname
  have hpriv : getPrometheusRule s arID.«namespace» arID.prometheusRule = some pr := by
    rw [getPrometheusRule, hget]
    simp [hne]
  have hfind : findCMOManagedRuleGroup pr = .error "CMO managed rule group not found" := by
    rw [findCMOManagedRuleGroup, hnogroup]
  rw [CreateAlertingRule, hpriv]
  simp [hmanaged, hfind]

/-- C2 witness: the amended behaviour at the concrete
managed-without-owned-group document. -/
theorem create_missing_group_fails_witness :
    GetPrometheusRule [exDocNoOwnedGroup] "ns" "pr1" = some exDocNoOwnedGroup ∧
    CreateAlertingRule [exDocNoOwnedGroup] exIdCritical exRuleCritical
      = (.error "CMO managed rule group not found", []) := by
  have h := create_missing_group_fails [exDocNoOwnedGroup] exIdCritical
    exRuleCritical exDocNoOwnedGroup (by decide) (by decide) (by decide) (by decide)
  exact ⟨by decide, h⟩

/-- C3 counterexample: on a concrete managed document holding a foreign
group next to the owned group, the persist step with an empty rule list
deletes the whole document even though a foreign group remains, contrary
to the claim that it would only remove the owned group and update. -/
theorem save_empty_deletes_despite_foreign_cex :
    exDocBoth.groups.map RuleGroup.name = ["foreign", "cmo-alert-management"] ∧
    savePrometheusRule [exDocBoth] "ns" "pr1" []
      = (.ok (), [.deletePrometheusRuleByNamespaceAndName "ns" "pr1"]) ∧
    applyWriteOps [exDocBoth] [.deletePrometheusRuleByNamespaceAndName "ns" "pr1"]
      = [] := by
  refine ⟨rfl, rfl, rfl⟩

/-- C3 amended: when the owned group's rule list becomes empty, the
persist step deletes the whole document whenever the document exists and
is controller-managed — regardless of whether foreign groups remain in it
— and writes nothing when the document is absent. -/
theorem save_empty_rules_deletes_document (s : Store) (ns name : String)
    (pr : PrometheusRule)
    (hget : GetPrometheusRule s ns name = some pr)
    (hname : pr.name ≠ "")
    (hmanaged : isCMOManagedPrometheusRule pr = true) :
    savePrometheusRule s ns name []
      = (.ok (), [.deletePrometheusRuleByNamespaceAndName ns name]) ∧
    (∀ s' : Store, GetPrometheusRule s' ns name = none →
      savePrometheusRule s' ns name [] = (.ok (), [])) := by
  have hne : (pr.name == "") = false := beq_eq_false_iff_ne.mpr hname
  have hpriv : getPrometheusRule s ns name = some pr := by
    rw [getPrometheusRule, hget]
    simp [hne]
  constructor
  · rw [savePrometheusRule, hpriv]
    simp [hmanaged]
  · intro s' habs
    have hpriv' : getPrometheusRule s' ns name = none := by
      rw [getPrometheusRule, habs]
    rw [savePrometheusRule, hpriv']
    rfl

/-- C3 witness: the amended behaviour at the concrete two-group document
and at the empty store. -/
theorem save_empty_rules_deletes_document_witness :
    GetPrometheusRule [exDocBoth] "ns" "pr1" = some exDocBoth ∧
    savePrometheusRule [exDocBoth] "ns" "pr1" []
      = (.ok (), [.deletePrometheusRuleByNamespaceAndName "ns" "pr1"]) ∧
    savePrometheusRule [] "ns" "pr1" [] = (.ok (), []) := by
  have h := save_empty_rules_deletes_document [exDocBoth] "ns" "pr1" exDocBoth
    (by decide) (by decide) (by decide)
  exact ⟨by decide, h.1, h.2 [] (by decide)⟩

/-- If some attempt in the window succeeds, the polling loop stops with
success. -/
theorem pollRunAux_success {E : Type} (f : Nat → Option E) :
    ∀ (fuel i : Nat) (lastErr : Option E) (j : Nat), j < fuel → f (i + j) = none →
      pollRunAux f lastErr i fuel = .success := by
  intro fuel
  induction fuel with
  | zero => intro i le j hj; omega
  | succ fuel ih =>
      intro i le j hj hnone
      rw [pollRunAux]
      cases hfi : f i with
      | none => rfl
      | some e =>
          have hj0 : j ≠ 0 := by
            intro h0
            rw [h0, Nat.add_zero] at hnone
            rw [hnone] at hfi
            exact Option.noConfusion hfi
          exact ih (i + 1) (some e) (j - 1) (by omega)
            (by rw [show i + 1 + (j - 1) = i + j by omega]; exact hnone)

/-- If every attempt in the window fails, the polling loop times out and
the captured last error is the last attempt's error (or the incoming one
when the window is empty). -/
theorem pollRunAux_timeout {E : Type} (f : Nat → Option E) :
    ∀ (fuel i : Nat) (lastErr : Option E), (∀ j, j < fuel → f (i + j) ≠ none) →
      pollRunAux f lastErr i fuel
        = .timedOut (match fuel with
            | 0 => lastErr
            | fuel' + 1 => f (i + fuel')) := by
  intro fuel
  induction fuel with
  | zero => intro i le _; rfl
  | succ fuel ih =>
      intro i le hall
      cases hfi : f i with
      | none => exact absurd hfi (hall 0 (Nat.succ_pos fuel))
      | some e =>
          simp only [pollRunAux, hfi]
          rw [ih (i + 1) (some e)
            (fun j hj => by
              rw [show i + 1 + j = i + (j + 1) by omega]
              exact hall (j + 1) (by omega))]
          cases fuel with
          | zero => simp [hfi]
          | succ fuel' =>
              simp only [PollRun.timedOut.injEq]
              rw [show i + 1 + fuel' = i + (fuel' + 1) by omega]

/-- Once the captured last error is non-nil, the loop can never time out
with a nil last error. -/
theorem pollRunAux_ne_timedOut_none {E : Type} (f : Nat → Option E) :
    ∀ (fuel i : Nat) (e : E),
      pollRunAux f (some e) i fuel ≠ .timedOut none := by
  intro fuel
  induction fuel with
  | zero => intro i e h; exact Option.noConfusion (PollRun.timedOut.inj h)
  | succ fuel ih =>
      intro i e h
      rw [pollRunAux] at h
      cases hfi : f i with
      | none => rw [hfi] at h; exact PollRun.noConfusion h
      | some e' => rw [hfi] at h; exact ih (i + 1) e' h

/-- C8: Poll invokes the probe starting at attempt zero (immediately) and
returns no error as soon as any attempt in the window succeeds; when every
attempt fails it returns the error wrapping the timeout together with the
most recent probe error; and the raw timeout error alone is returned
exactly when the window is empty, i.e. the probe never returned an
error. -/
theorem poll_contract {E : Type} (attempts : Nat) (f : Nat → Option E) :
    ((∃ i, i < attempts ∧ f i = none) → Poll attempts f = none) ∧
    (∀ n e, attempts = n + 1 → (∀ i, i < attempts → f i ≠ none) → f n = some e →
      Poll attempts f = some (.timeoutWrapping e)) ∧
    Poll 0 f = some .errWaitTimeout ∧
    (Poll attempts f = some .errWaitTimeout → attempts = 0) := by
  refine ⟨fun hsucc => ?_, fun n e hn hall hlast => ?_, rfl, fun hraw => ?_⟩
  · obtain ⟨i, hi, hnone⟩ := hsucc
    rw [Poll, pollRun,
      pollRunAux_success f attempts 0 none i hi (by rw [Nat.zero_add]; exact hnone)]
  · subst hn
    rw [Poll, pollRun,
      pollRunAux_timeout f (n + 1) 0 none
        (fun j hj => by rw [Nat.zero_add]; exact hall j hj)]
    simp only [Nat.zero_add, hlast]
  · by_contra hne
    obtain ⟨m, hm⟩ : ∃ m, attempts = m + 1 := by
      cases attempts with
      | zero => exact absurd rfl hne
      | succ m => exact ⟨m, rfl⟩
    subst hm
    rw [Poll, pollRun] at hraw
    cases hf0 : f 0 with
    | none =>
        simp only [pollRunAux, hf0] at hraw
        exact Option.noConfusion hraw
    | some e =>
        simp only [pollRunAux, hf0, Nat.zero_add] at hraw
        cases hrun : pollRunAux f (some e) 1 m with
        | success =>
            simp only [hrun] at hraw
            exact Option.noConfusion hraw
        | timedOut le =>
            cases le with
            | none => exact pollRunAux_ne_timedOut_none f m 1 e hrun
            | some e' =>
                simp only [hrun] at hraw
                exact PollError.noConfusion (Option.some.inj hraw)

/-- C8 witness: a probe failing twice then succeeding polls to success in
a three-attempt window; an always-failing probe in a two-attempt window
yields the timeout wrapping the second failure; a zero-attempt window
yields the raw timeout error. -/
theorem poll_contract_witness :
    Poll 3 (fun i => if i < 2 then some ("err" ++ toString i) else none) = none ∧
    Poll 2 (fun i => some ("err" ++ toString i))
      = some (.timeoutWrapping "err1") ∧
    Poll 0 (fun i => some ("err" ++ toString i)) = some .errWaitTimeout ∧
    (Poll 0 (fun i => some ("err" ++ toString i)) = some .errWaitTimeout →
      (0 : Nat) = 0) := by
  have h3 := poll_contract 3 (fun i => if i < 2 then some ("err" ++ toString i) else none)
  have h2 := poll_contract 2 (fun i : Nat => some ("err" ++ toString i))
  have h0 := poll_contract 0 (fun i : Nat => some ("err" ++ toString i))
  refine ⟨h3.1 ⟨2, by norm_num, by norm_num⟩, ?_, h0.2.2.1, fun _ => rfl⟩
  have := h2.2.1 1 ("err" ++ toString 1) rfl
    (fun i _ hnone => Option.noConfusion hnone) rfl
  simpa using this

/-- C9: for every identity in which any of the four path fields is empty,
ParseAlertingRuleId rejects with the invalid-identity error, the handler
answers 400 with that error before reaching the controller, and the
handler's answer is the same whatever the store contains — no store read
or write takes place. -/
theorem parse_rejects_incomplete_identity (ns prName ruleName severity : String)
    (h : ns = "" ∨ prName = "" ∨ ruleName = "" ∨ severity = "") :
    ParseAlertingRuleId ns prName ruleName severity
      = .error "missing required path parameters" ∧
    (∀ s : Store, getAlertingRuleHandler s ns prName ruleName severity
        = .badRequest "missing required path parameters") ∧
    (∀ s s' : Store, getAlertingRuleHandler s ns prName ruleName severity
        = getAlertingRuleHandler s' ns prName ruleName severity) := by
  have hparse : ParseAlertingRuleId ns prName ruleName severity
      = .error "missing required path parameters" := by
    rw [ParseAlertingRuleId]
    rcases h with h | h | h | h <;> subst h <;> simp
  have hhandler : ∀ s : Store, getAlertingRuleHandler s ns prName ruleName severity
      = .badRequest "missing required path parameters" := by
    intro s
    rw [getAlertingRuleHandler, hparse]
  exact ⟨hparse, hhandler, fun s s' => by rw [hhandler s, hhandler s']⟩

/-- C9 witness: with the severity path value empty, parsing fails and the
handler answers 400 identically on two different stores. -/
theorem parse_rejects_incomplete_identity_witness :
    ParseAlertingRuleId "ns" "pr1" "TestAlert" ""
      = .error "missing required path parameters" ∧
    getAlertingRuleHandler [exDocBoth] "ns" "pr1" "TestAlert" ""
      = .badRequest "missing required path parameters" ∧
    getAlertingRuleHandler [] "ns" "pr1" "TestAlert" ""
      = getAlertingRuleHandler [exDocBoth] "ns" "pr1" "TestAlert" "" := by
  have h := parse_rejects_incomplete_identity "ns" "pr1" "TestAlert" ""
    (Or.inr (Or.inr (Or.inr rfl)))
  exact ⟨h.1, h.2.1 [exDocBoth], h.2.2 [] [exDocBoth]⟩

end CMO
